import Mathlib

/-!
Verification of the WhatsApp multi-user gateway (repository
`WhsappApp---Integration`) against its natural-language specification.

The repository has three source variants of the same gateway:
* `src/index.js` — whatsapp-web.js backed gateway (per-user init lock,
  idle-TTL sweep, profile recovery);
* `src/unnamed/part_000` — Baileys backed gateway (ESM);
* `src/unnamed/part_001` — an earlier whatsapp-web.js variant.

This file shallowly embeds the session data model, the HTTP-handler logic,
the event handlers, the idle sweep, and the single-flight initializer as
executable Lean definitions translated from the JavaScript source, and
proves/refutes the specification claims about them.
-/

/-- Session status enum, from the source comment
`status: "idle" // idle|starting|qr|ready|disconnected|error`
(`src/index.js` line 73).  The spec calls `qr` "awaiting_scan". -/
inductive Status where
  | idle
  | starting
  | qr
  | ready
  | disconnected
  | error
  deriving DecidableEq, Repr

/-- Per-user session record, from `ensureState` (`src/index.js` lines 69-82):
`{ status, qrDataUrl, phone, lastError, client, lastUsedAt }`.
The `client` field holds the opaque protocol-client handle (called `sock` in
the Baileys variant `src/unnamed/part_000`); handles are modelled as numeric
ids so that distinct constructions are distinguishable. -/
structure SessionState where
  status : Status
  qrDataUrl : Option String
  phone : Option String
  lastError : Option String
  client : Option Nat
  lastUsedAt : Nat
  deriving DecidableEq, Repr

/-- The fresh record inserted by `ensureState` for a userId not yet in the
`clients` map (`src/index.js` lines 71-80): status `idle`, all optional
fields null, `lastUsedAt = Date.now()`. -/
def freshState (now : Nat) : SessionState :=
  { status := .idle, qrDataUrl := none, phone := none, lastError := none,
    client := none, lastUsedAt := now }

/-- External side effects performed by handlers (process-external actions:
constructing/destroying the protocol client, filesystem deletion of the
per-user credential directory, ending a Baileys socket, sending a message,
or scheduling a delayed retry — the last one is never emitted by any
variant, it exists so that the spec's reconnection claim is expressible). -/
inductive Effect where
  | constructClient
  | destroyClient
  | logoutClient
  | endSock
  | rmSessionDir
  | scheduleRetry
  | sendMsg (recipient text : String)
  deriving DecidableEq, Repr

/-! ## Auth middleware (`requireKey`)

From `src/index.js` lines 53-59 (identical in both other variants):
```
const key = req.header("X-API-Key");
if (!API_KEY || key !== API_KEY) return res.status(401)...
next();
```
`API_KEY` is `process.env.API_KEY || ""`, so an absent env var is the empty
string.  `requireKey apiKey header = true` means the request passes. -/
def requireKey (apiKey : String) (header : Option String) : Bool :=
  if apiKey = "" then false
  else match header with
       | none => false
       | some k => k = apiKey

/-! ## Recipient normalization (send endpoint) -/

/-- `String(to).replace(/\D/g, "")` — strip every non-digit character
(`src/index.js` line 338, `src/unnamed/part_000` line 245). -/
def digitsOnly (s : String) : String :=
  String.mk (s.data.filter Char.isDigit)

/-- JavaScript `String.prototype.includes`: `hasSubseg sub l` is true iff
the character list `sub` occurs contiguously inside `l`. -/
def hasSubseg (sub : List Char) : List Char → Bool
  | [] => sub.isEmpty
  | c :: rest => sub.isPrefixOf (c :: rest) || hasSubseg sub rest

/-- `s.includes(sub)` on strings. -/
def strIncludes (s sub : String) : Bool :=
  hasSubseg sub.data s.data

/-- Recipient normalization of `src/index.js` lines 336-338:
```
const chatId = String(to).includes("@c.us")
    ? String(to)
    : String(to).replace(/\D/g, "") + "@c.us";
```
Note the pass-through branch keeps `to` verbatim (non-digits retained). -/
def chatId (toField : String) : String :=
  if strIncludes toField "@c.us" then toField else digitsOnly toField ++ "@c.us"

/-- The spec's normalization recipe (spec §6: "recipient identifiers are
normalized by stripping all non-digit characters, then suffixing the
protocol's fixed routing domain if not already present"), parameterized by
the routing domain.  This is also, textually, the Baileys variant's code
(`src/unnamed/part_000` lines 245-246):
```
const clean = String(to).replace(/\D/g, "");
const jid = clean.includes("@s.whatsapp.net") ? clean : clean + "@s.whatsapp.net";
``` -/
def stripThenSuffix (domain toField : String) : String :=
  let clean := digitsOnly toField
  if strIncludes clean domain then clean else clean ++ domain

/-- The Baileys variant's `jid` (`src/unnamed/part_000` lines 245-246). -/
def jidOf (toField : String) : String :=
  stripThenSuffix "@s.whatsapp.net" toField

/-! ## Identity normalization (connection open, Baileys variant) -/

/-- `String(raw).split(":")[0]` — the characters before the first `:`
(the whole list if there is none), `src/unnamed/part_000` line 133. -/
def headBeforeColon : List Char → List Char
  | [] => []
  | c :: rest => if c = ':' then [] else c :: headBeforeColon rest

/-- The stored phone for a raw self-identifier. -/
def phoneFromId (raw : String) : String :=
  String.mk (headBeforeColon raw.data)

/-- The `connection === "open"` branch of the Baileys
`connection.update` handler (`src/unnamed/part_000` lines 127-136):
status `ready`, QR cleared, phone derived from `sock.user?.id` via
`raw ? String(raw).split(":")[0] : null` (JS falsiness: both a missing id
and the empty string yield null), and `touch`. -/
def connectionOpen (raw : Option String) (now : Nat) (st : SessionState) :
    SessionState :=
  { st with
    status := .ready
    qrDataUrl := none
    phone := match raw with
             | none => none
             | some r => if r = "" then none else some (phoneFromId r)
    lastUsedAt := now }

/-! ## Disconnect handling (connection close, Baileys variant) -/

/-- `DisconnectReason.loggedOut` from the `@whiskeysockets/baileys` library
(the terminal-logout status code 401); the library itself is external to
the repository. -/
def disconnectReasonLoggedOut : Nat := 401

/-- The `connection === "close"` branch of the Baileys `connection.update`
handler (`src/unnamed/part_000` lines 138-160):
status `disconnected`, QR and phone cleared, `lastError` records the code
(`code || "unknown"` — JS falsiness maps both a missing code and code 0 to
"unknown"), `touch`; if the code is `DisconnectReason.loggedOut` the
session directory is removed (`fs.rmSync(dir, ...)`); the socket is ended
(`st.sock?.end?.()`) and the handle cleared.  The returned effect list is
every external action the branch performs, in order. -/
def connectionClose (code : Option Nat) (now : Nat) (st : SessionState) :
    SessionState × List Effect :=
  let codeText := match code with
                  | none => "unknown"
                  | some c => if c = 0 then "unknown" else toString c
  let fsEffs := if code = some disconnectReasonLoggedOut
                then [Effect.rmSessionDir] else []
  let sockEffs := match st.client with
                  | some _ => [Effect.endSock]
                  | none => []
  ({ st with
     status := .disconnected
     qrDataUrl := none
     phone := none
     lastError := some ("disconnected: " ++ codeText)
     client := none
     lastUsedAt := now },
   fsEffs ++ sockEffs)

/-! ## Send endpoint handler -/

/-- An HTTP response as the send handler builds it: numeric status code,
the `ok` field, the `error` field, and the echoed session status (only the
409 body carries `status`). -/
structure HttpResp where
  code : Nat
  ok : Bool
  error : Option String
  statusEcho : Option Status
  deriving DecidableEq, Repr

/-- Outcome of one `POST /sessions/:userId/send` request:
the response, whether the handler went past validation and touched the
session (invoked `getOrCreateClient`/`ensureState`/`touch`), and the
recipient actually passed to `client.sendMessage`, if any. -/
structure SendOutcome where
  resp : HttpResp
  touched : Bool
  sentTo : Option String
  deriving DecidableEq, Repr

/-- The `POST /sessions/:userId/send` handler of `src/index.js`
lines 315-345, as a function of the request body fields (absent field =
`none`; the empty string is falsy in JS, hence also rejected by
`if (!to || !message)`), the session state `st` observed after
`await getOrCreateClient(userId)` re-read via `ensureState`, and the
outcome of `client.sendMessage` (`some e` = it threw error message `e`).
-/
def sendHandler (toField message : Option String) (st : SessionState)
    (sendErr : Option String) : SendOutcome :=
  match toField, message with
  | some t, some m =>
    if t = "" || m = "" then
      { resp := { code := 422, ok := false,
                  error := some "to and message are required",
                  statusEcho := none },
        touched := false, sentTo := none }
    else if st.status = Status.ready ∧ st.client ≠ none then
      let cid := chatId t
      match sendErr with
      | some e =>
        { resp := { code := 500, ok := false, error := some e,
                    statusEcho := none },
          touched := true, sentTo := some cid }
      | none =>
        { resp := { code := 200, ok := true, error := none,
                    statusEcho := none },
          touched := true, sentTo := some cid }
    else
      { resp := { code := 409, ok := false,
                  error := some "WhatsApp not connected",
                  statusEcho := some st.status },
        touched := true, sentTo := none }
  | _, _ =>
    { resp := { code := 422, ok := false,
                error := some "to and message are required",
                statusEcho := none },
      touched := false, sentTo := none }

/-! ## Idle TTL sweep (`src/index.js` lines 371-391) -/

/-- `now - (st.lastUsedAt || now)` (line 378); JS `||` treats 0 as falsy. -/
def idleMs (now : Nat) (st : SessionState) : Int :=
  (now : Int) - ((if st.lastUsedAt = 0 then now else st.lastUsedAt : Nat) : Int)

/-- One entry of the sweep body (`src/index.js` lines 374-390):
```
if (!st?.client) continue;
if (st.status !== "ready") continue;
const idleMs = now - (st.lastUsedAt || now);
if (idleMs < IDLE_TTL_MS) continue;
try { await st.client.destroy(); } catch {}
st.client = null; st.status = "idle"; st.qrDataUrl = null;
st.phone = null; st.lastError = null;
```
Returns the updated state and the external actions performed. -/
def sweepEntry (now ttl : Nat) (st : SessionState) :
    SessionState × List Effect :=
  match st.client with
  | none => (st, [])
  | some _ =>
    if st.status ≠ Status.ready then (st, [])
    else if idleMs now st < (ttl : Int) then (st, [])
    else
      ({ st with client := none, status := .idle, qrDataUrl := none,
                 phone := none, lastError := none },
       [Effect.destroyClient])

/-! ## Session event machine (`src/index.js`, one userId)

Each constructor is one synchronously-executed handler segment of
`src/index.js`; the per-user session record is mutated exactly as the
corresponding JavaScript block does.  Protocol events (`qr`, `ready`,
`auth_failure`, `disconnected`) are delivered by the live client, so they
are only enabled while the state owns a handle; `initStart` is the
initializer segment of `getOrCreateClient`, which only runs when no handle
is stored (otherwise the call fast-paths). -/
inductive Ev where
  /-- `getOrCreateClient` init segment (lines 151-167, 216): `touch`, then
  status `starting`, clear `qrDataUrl`/`phone`/`lastError`, construct the
  client and store it. -/
  | initStart (now : Nat)
  /-- `client.initialize()` rejected and recovery gave up (lines 237-250):
  status `error`, record the message, destroy and clear the handle. -/
  | initFailed (emsg : String)
  /-- `client.on("qr")` success path (lines 169-173): status `qr`,
  store the encoded payload, `touch`. -/
  | qrEvent (dataUrl : String) (now : Nat)
  /-- `client.on("qr")` catch path (lines 174-177): QR encoding failed,
  status `error`, record the message.  The handle is not cleared. -/
  | qrEncodeFail (emsg : String)
  /-- `client.on("ready")` (lines 180-198): status `ready`, clear
  `qrDataUrl`, store the derived phone, `touch`. -/
  | readyEvent (ph : Option String) (now : Nat)
  /-- `client.on("auth_failure")` (lines 200-203): status `error`,
  record `auth_failure: msg`.  The handle is not cleared. -/
  | authFailure (msg : String)
  /-- `client.on("disconnected")` (lines 205-214): status `disconnected`,
  clear `qrDataUrl`/`phone`, record the reason, `touch`, destroy and clear
  the handle. -/
  | disconnectedEvent (reason : String) (now : Nat)
  /-- `POST /sessions/:userId/logout` (lines 350-365): logout/destroy the
  handle if any, clear everything, status `idle`, `touch`. -/
  | logout (now : Nat)
  /-- One pass of the idle-TTL sweep over this entry (lines 371-391). -/
  | sweep (now ttl : Nat)
  /-- `touch` performed by `GET /sessions/:userId/status` (line 301) or by
  the fast path of `getOrCreateClient` (line 141). -/
  | statusTouch (now : Nat)

/-- One step of the `src/index.js` session machine; `none` when the event
cannot occur in this state (no live client to emit it, or a stored handle
making the initializer segment unreachable). -/
def sstep (st : SessionState) (e : Ev) : Option SessionState :=
  match e with
  | .initStart now =>
    match st.client with
    | some _ => none
    | none =>
      some { st with status := .starting, qrDataUrl := none, phone := none,
                     lastError := none, client := some 1, lastUsedAt := now }
  | .initFailed emsg =>
    match st.client with
    | none => none
    | some _ =>
      some { st with status := .error, lastError := some emsg, client := none }
  | .qrEvent dataUrl now =>
    match st.client with
    | none => none
    | some _ =>
      some { st with status := .qr, qrDataUrl := some dataUrl,
                     lastUsedAt := now }
  | .qrEncodeFail emsg =>
    match st.client with
    | none => none
    | some _ => some { st with status := .error, lastError := some emsg }
  | .readyEvent ph now =>
    match st.client with
    | none => none
    | some _ =>
      some { st with status := .ready, qrDataUrl := none, phone := ph,
                     lastUsedAt := now }
  | .authFailure msg =>
    match st.client with
    | none => none
    | some _ =>
      some { st with status := .error,
                     lastError := some ("auth_failure: " ++ msg) }
  | .disconnectedEvent reason now =>
    match st.client with
    | none => none
    | some _ =>
      some { st with status := .disconnected, qrDataUrl := none,
                     phone := none,
                     lastError := some ("disconnected: " ++ reason),
                     client := none, lastUsedAt := now }
  | .logout now =>
    some { st with status := .idle, qrDataUrl := none, phone := none,
                   lastError := none, client := none, lastUsedAt := now }
  | .sweep now ttl => some (sweepEntry now ttl st).1
  | .statusTouch now => some { st with lastUsedAt := now }

/-- Reachability: states of the `src/index.js` machine obtainable from a
freshly created record by any sequence of enabled events. -/
inductive Reach : SessionState → Prop where
  | base (t0 : Nat) : Reach (freshState t0)
  | step {s s' : SessionState} {e : Ev} :
      Reach s → sstep s e = some s' → Reach s'

/-! ## Single-flight initializer (`getOrCreateClient`, `src/index.js`
lines 138-263)

A small-step interleaving model for one userId on the Node.js event loop:
each step is one synchronous segment between suspension points.  A caller
task is at one of four program points:

* `start` — about to run the entry segment (lines 139-167, 216-220, 254):
  fast-path return if `state.client` is set; wait on `initLocks.get(id)`
  if present; otherwise run the init IIFE synchronously through
  `new Client(...)` and `state.client = client` up to the suspension at
  `await client.initialize()`, then `initLocks.set(id, ...)` and suspend
  at `await initPromise`.
* `initAwait` — the initializer, suspended at `await initPromise`; once
  the promise settles it runs `finally initLocks.delete(id)` and returns
  `ensureState(id).client` (lines 256-262).
* `waiting` — a caller suspended at `await initLocks.get(id)`; once the
  promise settles it returns the re-read `ensureState(id).client`
  (lines 146-149).
* `done r` — the call returned `r`.

The environment delivers the settlement of `client.initialize()`
(`initOk`/`initFail`); on rejection the catch block clears
`state.client` (lines 246-250) before the init promise resolves. -/
inductive PC where
  | start
  | initAwait
  | waiting
  | done (r : Option Nat)
  deriving DecidableEq, Repr

/-- Whether a task has returned. -/
def PC.isDone : PC → Bool
  | .done _ => true
  | _ => false

/-- Global state of the single-flight model for one userId: the
`state.client` field, whether `initLocks` has an entry for this id,
whether the entry's promise has settled, whether a `client.initialize()`
call is outstanding, how many times `new Client(...)` has run (fresh
handles are numbered 1, 2, ...), and the program counter of each caller. -/
structure GState where
  client : Option Nat
  lockEntry : Bool
  promiseResolved : Bool
  initPending : Bool
  constructions : Nat
  tasks : List PC
  deriving DecidableEq, Repr

/-- Scheduler actions: run one synchronous segment of caller `i`, or
deliver the success/failure of the outstanding `client.initialize()`.
Disabled actions (a still-pending await, a finished task, an out-of-range
index) leave the state unchanged. -/
inductive Act where
  | task (i : Nat)
  | initOk
  | initFail
  deriving DecidableEq, Repr

/-- One scheduler step of the single-flight model. -/
def stepOne (s : GState) (a : Act) : GState :=
  match a with
  | .initOk =>
    if s.initPending then
      { s with initPending := false, promiseResolved := true }
    else s
  | .initFail =>
    if s.initPending then
      { s with initPending := false, promiseResolved := true, client := none }
    else s
  | .task i =>
    match s.tasks.get? i with
    | some PC.start =>
      match s.client with
      | some h => { s with tasks := s.tasks.set i (.done (some h)) }
      | none =>
        if s.lockEntry then { s with tasks := s.tasks.set i .waiting }
        else
          { s with client := some (s.constructions + 1),
                   constructions := s.constructions + 1,
                   lockEntry := true, initPending := true,
                   promiseResolved := false,
                   tasks := s.tasks.set i .initAwait }
    | some PC.initAwait =>
      if s.promiseResolved then
        { s with lockEntry := false, tasks := s.tasks.set i (.done s.client) }
      else s
    | some PC.waiting =>
      if s.promiseResolved then
        { s with tasks := s.tasks.set i (.done s.client) }
      else s
    | some (PC.done _) => s
    | none => s

/-- Run a list of scheduler actions. -/
def runActs (s : GState) : List Act → GState
  | [] => s
  | a :: rest => runActs (stepOne s a) rest

/-- No caller has returned yet. -/
def noneDoneB (s : GState) : Bool :=
  s.tasks.all (fun pc => !pc.isDone)

/-- Every caller has run its entry segment. -/
def allStartedB (s : GState) : Bool :=
  s.tasks.all (fun pc => match pc with | PC.start => false | _ => true)

/-- Side condition of one scheduled action for the claim's scenario: an
action that is the entry segment of a caller still at `start` may only run
while no caller has returned yet (all N calls are issued before any
completes); every other action is unrestricted. -/
def actOk (s : GState) : Act → Bool
  | .task i =>
    if s.tasks.get? i = some PC.start then noneDoneB s else true
  | _ => true

/-- The claim's concurrency scenario: the N calls are all issued before
any of them completes — every action of the schedule satisfies `actOk` in
the state where it runs. -/
def admissibleB : GState → List Act → Bool
  | _, [] => true
  | s, a :: rest => actOk s a && admissibleB (stepOne s a) rest

/-- Initial state: `state.client` null, no `initLocks` entry, `n` callers
about to invoke `getOrCreateClient`. -/
def initGState (n : Nat) : GState :=
  { client := none, lockEntry := false, promiseResolved := false,
    initPending := false, constructions := 0,
    tasks := List.replicate n PC.start }

/-- Inductive invariant of the single-flight model under admissible
scheduling: at most one construction ever happens, the stored handle is
the first (and only) constructed one, every returned value is that handle
or null, a construction-free state is the pristine one, any progress
implies the construction happened, and the lock entry can only disappear
after the initializer returned. -/
def SFInv (s : GState) : Prop :=
  s.constructions ≤ 1 ∧
  (s.client = none ∨ s.client = some 1) ∧
  (∀ r : Option Nat, PC.done r ∈ s.tasks → r = none ∨ r = some 1) ∧
  (s.constructions = 0 →
    s.client = none ∧ s.lockEntry = false ∧ s.initPending = false ∧
    ∀ pc ∈ s.tasks, pc = PC.start) ∧
  ((∃ pc ∈ s.tasks, pc ≠ PC.start) → s.constructions = 1) ∧
  (s.constructions = 1 → s.lockEntry = false →
    s.tasks.any PC.isDone = true)

/-! ## Endpoint effect models (`src/index.js` request handlers)

These record, per endpoint, the registry record the handler operates on
(for a userId whose record may not exist yet) and the external actions it
triggers synchronously — in particular whether it runs the
`getOrCreateClient` initializer segment (constructing a protocol client)
before responding. -/

/-- The synchronous entry segment of `getOrCreateClient`
(`src/index.js` lines 138-167, 216): `touch`; if a handle is stored,
no external action; otherwise status `starting`, transient fields cleared,
a client constructed and stored. -/
def gocSegment (st : SessionState) (now : Nat) : SessionState × List Effect :=
  let st0 := { st with lastUsedAt := now }
  match st0.client with
  | some _ => (st0, [])
  | none =>
    ({ st0 with status := .starting, qrDataUrl := none, phone := none,
                lastError := none, client := some 1 },
     [Effect.constructClient])

/-- `POST /sessions/:userId/start` (lines 268-273): `ensureState` (creating
the record if absent) followed by `getOrCreateClient`; responds
`{ok, status}` afterwards. -/
def startEndpoint (reg : Option SessionState) (now : Nat) :
    SessionState × List Effect :=
  gocSegment (reg.getD (freshState now)) now

/-- `GET /sessions/:userId/qr` (lines 278-293): identical session effects
to the start endpoint — it awaits `getOrCreateClient` before responding
`{ok, status, qr, phone, error}`. -/
def qrEndpoint (reg : Option SessionState) (now : Nat) :
    SessionState × List Effect :=
  gocSegment (reg.getD (freshState now)) now

/-- `GET /sessions/:userId/status` (lines 298-309): `ensureState` and
`touch` only; responds from the current record. -/
def statusEndpoint (reg : Option SessionState) (now : Nat) :
    SessionState × List Effect :=
  ({ reg.getD (freshState now) with lastUsedAt := now }, [])

/-- `POST /sessions/:userId/logout` (lines 350-365): logout and destroy the
stored handle if any, then reset every field to the idle defaults and
`touch`. -/
def logoutEndpoint (reg : Option SessionState) (now : Nat) :
    SessionState × List Effect :=
  let st := reg.getD (freshState now)
  ({ st with status := .idle, qrDataUrl := none, phone := none,
             lastError := none, client := none, lastUsedAt := now },
   match st.client with
   | some _ => [Effect.logoutClient, Effect.destroyClient]
   | none => [])

/-- `POST /sessions/:userId/send` up to its `await getOrCreateClient`
(lines 315-323): a request with a missing or empty `to`/`message` is
rejected before any session is created or touched; otherwise the
initializer segment runs.  The post-initialization part of the handler
(409/500/200 and the recipient actually sent to) is `sendHandler`. -/
def sendEndpointInit (toField message : Option String)
    (reg : Option SessionState) (now : Nat) :
    Option SessionState × List Effect :=
  match toField, message with
  | some t, some m =>
    if t = "" || m = "" then (reg, [])
    else
      let r := gocSegment (reg.getD (freshState now)) now
      (some r.1, r.2)
  | _, _ => (reg, [])

/-- JS falsiness of a request body string field: absent or empty. -/
def missingField : Option String → Bool
  | none => true
  | some s => s = ""

theorem mk_data (s : String) : String.mk s.data = s := by
  cases s
  rfl

theorem hasSubseg_sub {sub : List Char} :
    ∀ l : List Char, hasSubseg sub l = true → sub ⊆ l := by
  intro l
  induction l with
  | nil =>
    intro h
    simp only [hasSubseg, List.isEmpty_iff] at h
    simp [h]
  | cons a t ih =>
    intro h
    simp only [hasSubseg, Bool.or_eq_true] at h
    rcases h with h | h
    · exact (List.isPrefixOf_iff_prefix.mp h).subset
    · exact fun c hc => List.mem_cons_of_mem a (ih h hc)

theorem digitsOnly_no_domain (domain t : String) (c : Char)
    (hc : c ∈ domain.data) (hcd : c.isDigit = false) :
    strIncludes (digitsOnly t) domain = false := by
  by_contra h
  rw [Bool.not_eq_false] at h
  have hmem : c ∈ (digitsOnly t).data := hasSubseg_sub _ h hc
  have hdata : (digitsOnly t).data = t.data.filter Char.isDigit := rfl
  rw [hdata, List.mem_filter] at hmem
  rw [hmem.2] at hcd
  exact Bool.true_eq_false.mp hcd

/-- Claim C8: auth is fail-closed.  When the configured shared key is
empty (including the absent-env case, since `API_KEY = process.env.API_KEY
|| ""`), `requireKey` rejects every request regardless of its header; when
the key is non-empty a request passes exactly when its `X-API-Key` header
equals the configured value.  Empty configuration never disables auth. -/
theorem auth_fail_closed (apiKey : String) (header : Option String) :
    (apiKey = "" → requireKey apiKey header = false) ∧
    (apiKey ≠ "" → (requireKey apiKey header = true ↔ header = some apiKey)) := by
  constructor
  · intro h
    simp [requireKey, h]
  · intro h
    rcases header with _ | k
    · simp [requireKey, h]
    · simp [requireKey, h]

/-- Witness for C8: the configured key "super-secret" admits exactly a
matching header, and the empty configuration rejects even an empty
header. -/
theorem auth_fail_closed_witness :
    requireKey "super-secret" (some "super-secret") = true ∧
    requireKey "" (some "") = false :=
  ⟨((auth_fail_closed "super-secret" (some "super-secret")).2
      (by decide)).mpr rfl,
   (auth_fail_closed "" (some "")).1 rfl⟩

/-- Claim C6, counterexample: `src/index.js` does not apply the spec's
strip-then-suffix recipe to every accepted `to`.  For `to = "1-2@c.us"`
the code passes the recipient through verbatim (the `includes("@c.us")`
branch), while the recipe (strip all non-digits, then suffix the domain)
yields "12@c.us". -/
theorem send_recipient_counterexample :
    chatId "1-2@c.us" = "1-2@c.us" ∧
    stripThenSuffix "@c.us" "1-2@c.us" = "12@c.us" ∧
    chatId "1-2@c.us" ≠ stripThenSuffix "@c.us" "1-2@c.us" := by decide

/-- Claim C6, amended: `src/index.js` applies the strip-then-suffix recipe
only to recipients not already containing "@c.us"; a `to` containing
"@c.us" is passed to `sendMessage` verbatim, non-digits retained.  (The
Baileys variant `src/unnamed/part_000` follows the recipe for every input:
`jidOf` always equals digits-plus-domain.) -/
theorem send_recipient_amended (t : String) :
    (strIncludes t "@c.us" = false →
      chatId t = stripThenSuffix "@c.us" t ∧
      chatId t = digitsOnly t ++ "@c.us") ∧
    (strIncludes t "@c.us" = true → chatId t = t) ∧
    jidOf t = digitsOnly t ++ "@s.whatsapp.net" := by
  have h1 : strIncludes (digitsOnly t) "@c.us" = false :=
    digitsOnly_no_domain "@c.us" t '@' (by decide) (by decide)
  have h2 : strIncludes (digitsOnly t) "@s.whatsapp.net" = false :=
    digitsOnly_no_domain "@s.whatsapp.net" t '@' (by decide) (by decide)
  refine ⟨fun h => ?_, fun h => ?_, ?_⟩
  · constructor
    · simp [chatId, stripThenSuffix, h, h1]
    · simp [chatId, h]
  · simp [chatId, h]
  · simp [jidOf, stripThenSuffix, h2]

/-- Witness for the amended C6 at the spec's own example: "555-1234" does
not contain "@c.us", so it is normalized to digits plus domain. -/
theorem send_recipient_amended_witness :
    chatId "555-1234" = digitsOnly "555-1234" ++ "@c.us" :=
  (((send_recipient_amended "555-1234").1 (by decide))).2

theorem headBeforeColon_append (l₁ l₂ : List Char) (h : ':' ∉ l₁) :
    headBeforeColon (l₁ ++ ':' :: l₂) = l₁ := by
  induction l₁ with
  | nil => simp [headBeforeColon]
  | cons a t ih =>
    have ha : ¬(a = ':') := fun ha => by
      rw [ha] at h
      exact h (List.mem_cons_self ':' t)
    show (if a = ':' then [] else a :: headBeforeColon (t ++ ':' :: l₂)) =
      a :: t
    rw [if_neg ha, ih (fun hm => h (List.mem_cons_of_mem a hm))]

/-- Claim C7: identity normalization.  For a connection-open event whose
self-identifier has the shape number-colon-device-at-domain, the Baileys
open branch stores exactly the substring before the first colon (the bare
number) as the identity, with no other formatting. -/
theorem identity_normalization (n d : String) (now : Nat) (st : SessionState)
    (h : ':' ∉ n.data) :
    (connectionOpen (some (n ++ ":" ++ d)) now st).phone = some n := by
  have hdata : (n ++ ":" ++ d).data = n.data ++ ':' :: d.data := by
    simp [String.data_append]
  have hne : ¬(n ++ ":" ++ d) = "" := by
    intro he
    have h0 : (n ++ ":" ++ d).data = ([] : List Char) := by rw [he]
    rw [hdata] at h0
    simp at h0
  simp only [connectionOpen, if_neg hne]
  rw [phoneFromId, hdata, headBeforeColon_append _ _ h, mk_data]

/-- Witness for C7 at the source comment's example identifier
"5358830083:12@s.whatsapp.net". -/
theorem identity_normalization_witness :
    (connectionOpen (some ("5358830083" ++ ":" ++ "12@s.whatsapp.net")) 5
        (freshState 0)).phone = some "5358830083" :=
  identity_normalization "5358830083" "12@s.whatsapp.net" 5 (freshState 0)
    (by decide)

/-- Claim C2, counterexample: the disconnect handler schedules no
re-initialization at all.  At the retryable code 515 (restart required),
the Baileys close branch only ends the socket — its effect list is exactly
`[endSock]`, containing no scheduled-retry action — and clears the handle,
leaving status `disconnected`. -/
theorem retryable_disconnect_counterexample :
    (connectionClose (some 515) 100
        { status := Status.ready, qrDataUrl := none, phone := some "123",
          lastError := none, client := some 1, lastUsedAt := 50 }).2 =
      [Effect.endSock] ∧
    Effect.scheduleRetry ∉
      (connectionClose (some 515) 100
        { status := Status.ready, qrDataUrl := none, phone := some "123",
          lastError := none, client := some 1, lastUsedAt := 50 }).2 := by
  decide

/-- Claim C2, amended: on a disconnect whose code is not the terminal
logout code, the close handler sets status `disconnected`, clears the
handle, preserves the on-disk credentials, and schedules no automatic
retry; a fresh initialization happens only when the next explicit
`getOrCreateClient` call finds the cleared handle. -/
theorem retryable_disconnect_amended (code now : Nat) (st : SessionState)
    (h : code ≠ disconnectReasonLoggedOut) :
    (connectionClose (some code) now st).1.status = Status.disconnected ∧
    (connectionClose (some code) now st).1.client = none ∧
    Effect.scheduleRetry ∉ (connectionClose (some code) now st).2 ∧
    Effect.rmSessionDir ∉ (connectionClose (some code) now st).2 := by
  have hne : ¬(some code = some disconnectReasonLoggedOut) := by
    simp [h]
  refine ⟨rfl, rfl, ?_, ?_⟩ <;>
    · simp only [connectionClose, if_neg hne, List.nil_append]
      rcases st.client with _ | c <;> simp

/-- Witness for the amended C2 at code 515 on a ready session. -/
theorem retryable_disconnect_amended_witness :
    (connectionClose (some 515) 100
        { status := Status.ready, qrDataUrl := none, phone := some "123",
          lastError := none, client := some 2, lastUsedAt := 50 }).1.status =
      Status.disconnected ∧
    Effect.scheduleRetry ∉
      (connectionClose (some 515) 100
        { status := Status.ready, qrDataUrl := none, phone := some "123",
          lastError := none, client := some 2, lastUsedAt := 50 }).2 := by
  have h := retryable_disconnect_amended 515 100
    { status := Status.ready, qrDataUrl := none, phone := some "123",
      lastError := none, client := some 2, lastUsedAt := 50 } (by decide)
  exact ⟨h.1, h.2.2.1⟩

/-- Claim C3, counterexample: on the terminal-logout code (401) the
Baileys close branch does delete the credential directory, but it sets the
status to `disconnected`, not `idle` as the claim states. -/
theorem terminal_logout_counterexample :
    (connectionClose (some 401) 100
        { status := Status.ready, qrDataUrl := none, phone := some "123",
          lastError := none, client := some 1, lastUsedAt := 50 }).1.status =
      Status.disconnected ∧
    Status.disconnected ≠ Status.idle ∧
    Effect.rmSessionDir ∈
      (connectionClose (some 401) 100
        { status := Status.ready, qrDataUrl := none, phone := some "123",
          lastError := none, client := some 1, lastUsedAt := 50 }).2 := by
  decide

/-- Claim C3, amended: a disconnect carrying the terminal-logout code, for
a session holding a live handle, deletes the user's on-disk credential
storage and ends the socket (those are exactly the external actions — in
particular no retry is scheduled), clears the handle, and sets the status
to `disconnected` (recording the code in `lastError`); the next initialize
request then starts from scratch, requiring a fresh QR challenge because
the credentials are gone. -/
theorem terminal_logout_amended (now : Nat) (st : SessionState) (c : Nat)
    (h : st.client = some c) :
    (connectionClose (some disconnectReasonLoggedOut) now st).1.status =
      Status.disconnected ∧
    (connectionClose (some disconnectReasonLoggedOut) now st).1.client =
      none ∧
    (connectionClose (some disconnectReasonLoggedOut) now st).1.lastError =
      some "disconnected: 401" ∧
    (connectionClose (some disconnectReasonLoggedOut) now st).2 =
      [Effect.rmSessionDir, Effect.endSock] := by
  refine ⟨rfl, rfl, rfl, ?_⟩
  simp [connectionClose, h]

/-- Witness for the amended C3 on a concrete ready session. -/
theorem terminal_logout_amended_witness :
    (connectionClose (some disconnectReasonLoggedOut) 100
        { status := Status.ready, qrDataUrl := none, phone := some "123",
          lastError := none, client := some 7, lastUsedAt := 50 }).2 =
      [Effect.rmSessionDir, Effect.endSock] :=
  (terminal_logout_amended 100
    { status := Status.ready, qrDataUrl := none, phone := some "123",
      lastError := none, client := some 7, lastUsedAt := 50 } 7 rfl).2.2.2

/-- Claim C5: the send endpoint's error contract.  A request with a
missing (or empty, which JS treats as falsy) `to` or `message` is answered
422 before any session is created or touched; otherwise, if the
post-initialization state is not `ready` or holds no live handle, the
response is 409 with `ok:false`, an error string, and the current status;
if `client.sendMessage` throws, the response is 500 with `ok:false` and
the thrown message; otherwise the response is 200 `{ok:true}`. -/
theorem send_contract (toField message : Option String) (st : SessionState)
    (sendErr : Option String) :
    ((missingField toField || missingField message) = true →
      sendHandler toField message st sendErr =
        { resp := { code := 422, ok := false,
                    error := some "to and message are required",
                    statusEcho := none },
          touched := false, sentTo := none }) ∧
    ((missingField toField || missingField message) = false →
      (¬(st.status = Status.ready ∧ st.client ≠ none) →
        sendHandler toField message st sendErr =
          { resp := { code := 409, ok := false,
                      error := some "WhatsApp not connected",
                      statusEcho := some st.status },
            touched := true, sentTo := none }) ∧
      (st.status = Status.ready ∧ st.client ≠ none →
        (∀ e, sendErr = some e →
          sendHandler toField message st sendErr =
            { resp := { code := 500, ok := false, error := some e,
                        statusEcho := none },
              touched := true, sentTo := some (chatId (toField.getD "")) }) ∧
        (sendErr = none →
          sendHandler toField message st sendErr =
            { resp := { code := 200, ok := true, error := none,
                        statusEcho := none },
              touched := true,
              sentTo := some (chatId (toField.getD "")) }))) := by
  rcases toField with _ | t
  · exact ⟨fun _ => rfl, fun hf => by simp [missingField] at hf⟩
  · rcases message with _ | m
    · exact ⟨fun _ => rfl, fun hf => by simp [missingField] at hf⟩
    · constructor
      · intro h
        simp only [missingField, Bool.or_eq_true, decide_eq_true_eq] at h
        simp [sendHandler, h]
      · intro h
        simp only [missingField, Bool.or_eq_false_iff, decide_eq_false_iff_not]
          at h
        constructor
        · intro hnr
          simp [sendHandler, h.1, h.2, hnr]
        · intro hr
          constructor
          · intro e he
            subst he
            simp [sendHandler, h.1, h.2, hr]
          · intro he
            subst he
            simp [sendHandler, h.1, h.2, hr]

/-- Witness for C5: a valid body on a ready session with a successful send
yields `{ok:true}` with the normalized recipient. -/
theorem send_contract_witness :
    sendHandler (some "5355555555") (some "hola")
        { status := Status.ready, qrDataUrl := none,
          phone := some "5358830083", lastError := none, client := some 1,
          lastUsedAt := 0 } none =
      { resp := { code := 200, ok := true, error := none,
                  statusEcho := none },
        touched := true,
        sentTo := some (chatId ((some "5355555555").getD "")) } :=
  (((send_contract (some "5355555555") (some "hola")
      { status := Status.ready, qrDataUrl := none,
        phone := some "5358830083", lastError := none, client := some 1,
        lastUsedAt := 0 } none).2 (by decide)).2 (by decide)).2 rfl

/-- Claim C9: the idle-TTL sweep.  Under the invariant that a `ready`
session owns a handle (proved for all reachable states of the machine),
the sweep evicts exactly the `ready` sessions whose idle time reached the
TTL — resetting them to `idle`, destroying the handle, clearing
`qrDataUrl`/`phone`/`lastError`, and performing no filesystem action (the
on-disk credentials survive) — and leaves every other session untouched:
sessions in any non-`ready` status, and sessions whose idle time is below
the TTL, are never evicted. -/
theorem idle_eviction_contract (now ttl : Nat) (st : SessionState)
    (hready : st.status = Status.ready → st.client ≠ none) :
    (st.status = Status.ready → (ttl : Int) ≤ idleMs now st →
      sweepEntry now ttl st =
        ({ st with client := none, status := .idle, qrDataUrl := none,
                   phone := none, lastError := none },
         [Effect.destroyClient])) ∧
    (st.status ≠ Status.ready → sweepEntry now ttl st = (st, [])) ∧
    (idleMs now st < (ttl : Int) → sweepEntry now ttl st = (st, [])) ∧
    Effect.rmSessionDir ∉ (sweepEntry now ttl st).2 := by
  rcases hc : st.client with _ | c
  · have hs : st.status ≠ Status.ready := fun h => hready h hc
    refine ⟨fun h _ => absurd h hs, fun _ => ?_, fun _ => ?_, ?_⟩ <;>
      simp [sweepEntry, hc]
  · refine ⟨?_, ?_, ?_, ?_⟩
    · intro hr hid
      simp [sweepEntry, hc, hr, not_lt.mpr hid]
    · intro hs
      simp [sweepEntry, hc, hs]
    · intro hid
      by_cases hs : st.status = Status.ready
      · simp [sweepEntry, hc, hs, hid]
      · simp [sweepEntry, hc, hs]
    · by_cases hs : st.status = Status.ready
      · by_cases hid : idleMs now st < (ttl : Int)
        · simp [sweepEntry, hc, hs, hid]
        · simp [sweepEntry, hc, hs, hid]
      · simp [sweepEntry, hc, hs]

/-- Witness for C9: a ready session idle for 190ms against a 100ms TTL is
evicted to idle with its handle destroyed; the same session evaluated
within the TTL window is untouched. -/
theorem idle_eviction_contract_witness :
    sweepEntry 200 100
        { status := Status.ready, qrDataUrl := none, phone := some "123",
          lastError := some "old", client := some 1, lastUsedAt := 10 } =
      ({ status := Status.idle, qrDataUrl := none, phone := none,
         lastError := none, client := none, lastUsedAt := 10 },
       [Effect.destroyClient]) ∧
    sweepEntry 50 100
        { status := Status.ready, qrDataUrl := none, phone := some "123",
          lastError := some "old", client := some 1, lastUsedAt := 10 } =
      ({ status := Status.ready, qrDataUrl := none, phone := some "123",
         lastError := some "old", client := some 1, lastUsedAt := 10 },
       []) :=
  ⟨(idle_eviction_contract 200 100
      { status := Status.ready, qrDataUrl := none, phone := some "123",
        lastError := some "old", client := some 1, lastUsedAt := 10 }
      (fun _ => by decide)).1 rfl (by decide),
   ((idle_eviction_contract 50 100
      { status := Status.ready, qrDataUrl := none, phone := some "123",
        lastError := some "old", client := some 1, lastUsedAt := 10 }
      (fun _ => by decide)).2.2.1 (by decide))⟩

/-- Claim C10: the QR endpoint is not read-only.  For a userId with no
record yet, `GET /sessions/:userId/qr` (and `POST .../start`, and
`POST .../send` with a valid body) first runs the full
`getOrCreateClient` initializer: it creates the record, constructs a
protocol client, and the status leaves `idle` (it is `starting` with a
stored handle) before the response is built.  `GET .../status` performs no
external action and preserves the status, and `POST .../logout` resets to
`idle` with at most a logout/destroy of an existing handle — neither ever
constructs a client. -/
theorem qr_endpoint_not_readonly :
    ((qrEndpoint none 7).1.status = Status.starting ∧
     (qrEndpoint none 7).1.client = some 1 ∧
     (qrEndpoint none 7).2 = [Effect.constructClient]) ∧
    (startEndpoint none 7).2 = [Effect.constructClient] ∧
    (sendEndpointInit (some "5355555555") (some "hola") none 7).2 =
      [Effect.constructClient] ∧
    (∀ (reg : Option SessionState) (now : Nat),
      (statusEndpoint reg now).2 = [] ∧
      (statusEndpoint reg now).1.status =
        (reg.getD (freshState now)).status) ∧
    (∀ (reg : Option SessionState) (now : Nat),
      (logoutEndpoint reg now).1.status = Status.idle ∧
      ((logoutEndpoint reg now).2 = [] ∨
       (logoutEndpoint reg now).2 =
         [Effect.logoutClient, Effect.destroyClient])) := by
  refine ⟨by decide, by decide, by decide, fun reg now => ⟨rfl, rfl⟩,
    fun reg now => ⟨rfl, ?_⟩⟩
  rcases hc : (reg.getD (freshState now)).client with _ | c
  · exact Or.inl (by simp [logoutEndpoint, hc])
  · exact Or.inr (by simp [logoutEndpoint, hc])

theorem sweepEntry_state_cases (now ttl : Nat) (st : SessionState) :
    (sweepEntry now ttl st).1 = st ∨
    (sweepEntry now ttl st).1 =
      { st with client := none, status := .idle, qrDataUrl := none,
                phone := none, lastError := none } := by
  rcases hc : st.client with _ | c
  · exact Or.inl (by simp [sweepEntry, hc])
  · by_cases hs : st.status ≠ Status.ready
    · exact Or.inl (by simp [sweepEntry, hc, hs])
    · by_cases hid : idleMs now st < (ttl : Int)
      · exact Or.inl (by simp [sweepEntry, hc, hs, hid])
      · exact Or.inr (by simp [sweepEntry, hc, hs, hid])

/-- Claim C4, amended: in every reachable state of the `src/index.js`
session machine, a status of `starting`, `qr` (awaiting scan) or `ready`
implies a stored handle, and a status of `idle` or `disconnected` implies
a cleared handle.  The claimed if-and-only-if fails only for `error`: the
`auth_failure` and QR-encode-failure transitions set status `error`
without releasing the handle (see the counterexample), so an `error`
state may or may not hold one. -/
theorem handle_status_amended (s : SessionState) (h : Reach s) :
    ((s.status = Status.starting ∨ s.status = Status.qr ∨
      s.status = Status.ready) → s.client ≠ none) ∧
    ((s.status = Status.idle ∨ s.status = Status.disconnected) →
      s.client = none) := by
  induction h with
  | base t0 => simp [freshState]
  | @step s s2 e hr hstep ih =>
    cases e with
    | initStart now =>
      rcases hc : s.client with _ | c <;> rw [sstep, hc] at hstep
      · injection hstep with hstep
        subst hstep
        simp
      · exact absurd hstep (by simp)
    | initFailed emsg =>
      rcases hc : s.client with _ | c <;> rw [sstep, hc] at hstep
      · exact absurd hstep (by simp)
      · injection hstep with hstep
        subst hstep
        simp
    | qrEvent dataUrl now =>
      rcases hc : s.client with _ | c <;> rw [sstep, hc] at hstep
      · exact absurd hstep (by simp)
      · injection hstep with hstep
        subst hstep
        simp
    | qrEncodeFail emsg =>
      rcases hc : s.client with _ | c <;> rw [sstep, hc] at hstep
      · exact absurd hstep (by simp)
      · injection hstep with hstep
        subst hstep
        simp
    | readyEvent ph now =>
      rcases hc : s.client with _ | c <;> rw [sstep, hc] at hstep
      · exact absurd hstep (by simp)
      · injection hstep with hstep
        subst hstep
        simp
    | authFailure msg =>
      rcases hc : s.client with _ | c <;> rw [sstep, hc] at hstep
      · exact absurd hstep (by simp)
      · injection hstep with hstep
        subst hstep
        simp
    | disconnectedEvent reason now =>
      rcases hc : s.client with _ | c <;> rw [sstep, hc] at hstep
      · exact absurd hstep (by simp)
      · injection hstep with hstep
        subst hstep
        simp
    | logout now =>
      rw [sstep] at hstep
      injection hstep with hstep
      subst hstep
      simp
    | sweep now ttl =>
      rw [sstep] at hstep
      injection hstep with hstep
      rcases sweepEntry_state_cases now ttl s with hcase | hcase <;>
        rw [hcase] at hstep <;> subst hstep
      · exact ih
      · simp
    | statusTouch now =>
      rw [sstep] at hstep
      injection hstep with hstep
      subst hstep
      simpa using ih

/-- Witness for the amended C4 at the initial reachable state. -/
theorem handle_status_amended_witness : (freshState 0).client = none :=
  (handle_status_amended (freshState 0) (Reach.base 0)).2 (Or.inl rfl)

/-- Claim C4, counterexample: after `initStart` followed by an
`auth_failure` event, the machine reaches a state with status `error` that
still holds the handle (`client = some 1`), refuting the claimed
equivalence "clientHandle non-null iff status in starting/awaiting_scan/
ready" — the auth-failure transition into `error` does not release the
handle. -/
theorem handle_status_counterexample :
    Reach { status := Status.error, qrDataUrl := none, phone := none,
            lastError := some "auth_failure: invalid", client := some 1,
            lastUsedAt := 3 } ∧
    ({ status := Status.error, qrDataUrl := none, phone := none,
       lastError := some "auth_failure: invalid", client := some 1,
       lastUsedAt := 3 } : SessionState).client ≠ none ∧
    ¬(Status.error = Status.starting ∨ Status.error = Status.qr ∨
      Status.error = Status.ready) := by
  refine ⟨?_, by decide, by decide⟩
  have h1 : sstep (freshState 3) (Ev.initStart 3) = some
      { status := Status.starting, qrDataUrl := none, phone := none,
        lastError := none, client := some 1, lastUsedAt := 3 } := rfl
  have h2 : sstep
      { status := Status.starting, qrDataUrl := none, phone := none,
        lastError := none, client := some 1, lastUsedAt := 3 }
      (Ev.authFailure "invalid") = some
      { status := Status.error, qrDataUrl := none, phone := none,
        lastError := some "auth_failure: invalid", client := some 1,
        lastUsedAt := 3 } := rfl
  exact Reach.step (Reach.step (Reach.base 3) h1) h2

theorem not_any_of_noneDoneB {s : GState} (h : noneDoneB s = true) :
    s.tasks.any PC.isDone = false := by
  rw [List.any_eq_false]
  rw [noneDoneB, List.all_eq_true] at h
  intro x hx
  simpa using h x hx

theorem any_isDone_set : ∀ (l : List PC) (i : Nat) (x : PC),
    i < l.length → PC.isDone x = true →
    (l.set i x).any PC.isDone = true := by
  intro l
  induction l with
  | nil =>
    intro i x h _
    simp at h
  | cons a t ih =>
    intro i x h hx
    cases i with
    | zero => simp [List.set_cons_zero, List.any_cons, hx]
    | succ j =>
      rw [List.set_cons_succ, List.any_cons, Bool.or_eq_true]
      exact Or.inr (ih j x (by simpa using h) hx)


theorem SFInv_stepOne (s : GState) (a : Act) (hinv : SFInv s)
    (hadm : ∀ i, a = Act.task i → s.tasks.get? i = some PC.start →
      noneDoneB s = true) :
    SFInv (stepOne s a) := by
  unfold SFInv at hinv
  obtain ⟨h1, h2, h3, h4, h5, h6⟩ := hinv
  cases a with
  | initOk =>
    by_cases hp : s.initPending = true
    · simp only [stepOne, hp, if_true]
      unfold SFInv
      dsimp only
      exact ⟨h1, h2, h3,
        fun h0 => ⟨(h4 h0).1, (h4 h0).2.1, rfl, (h4 h0).2.2.2⟩, h5, h6⟩
    · simp only [stepOne, hp, if_false]
      unfold SFInv
      exact ⟨h1, h2, h3, h4, h5, h6⟩
  | initFail =>
    by_cases hp : s.initPending = true
    · simp only [stepOne, hp, if_true]
      unfold SFInv
      dsimp only
      exact ⟨h1, Or.inl rfl, h3,
        fun h0 => ⟨rfl, (h4 h0).2.1, rfl, (h4 h0).2.2.2⟩, h5, h6⟩
    · simp only [stepOne, hp, if_false]
      unfold SFInv
      exact ⟨h1, h2, h3, h4, h5, h6⟩
  | task i =>
    rcases hg : s.tasks.get? i with _ | pc
    · simp only [stepOne, hg]
      unfold SFInv
      exact ⟨h1, h2, h3, h4, h5, h6⟩
    · have hmem := List.get?_mem hg
      have hlen : i < s.tasks.length := by
        rcases List.get?_eq_some.mp hg with ⟨hl, _⟩
        exact hl
      cases pc with
      | start =>
        have hnd : noneDoneB s = true := hadm i rfl hg
        rcases hc : s.client with _ | hcl
        · by_cases hl : s.lockEntry = true
          · -- another init is in flight: the caller moves to `waiting`
            have hc0 : s.constructions ≠ 0 := by
              intro h0
              rw [(h4 h0).2.1] at hl
              exact absurd hl (by decide)
            have hc1 : s.constructions = 1 := by omega
            simp only [stepOne, hg, hc, hl, if_true]
            unfold SFInv
            dsimp only
            refine ⟨h1, Or.inl rfl, ?_, fun h0 => absurd h0 hc0,
              fun _ => hc1, fun _ hfalse => absurd hfalse (by decide)⟩
            intro r hrm
            rcases List.mem_or_eq_of_mem_set hrm with hin | heq
            · exact h3 r hin
            · simp at heq
          · -- the caller becomes the initializer and constructs
            have hlf : s.lockEntry = false := by
              simpa using hl
            have hc0 : s.constructions = 0 := by
              by_contra hne
              have hc1 : s.constructions = 1 := by omega
              have hany := h6 hc1 hlf
              rw [not_any_of_noneDoneB hnd] at hany
              exact absurd hany (by decide)
            have hstep : stepOne s (Act.task i) =
                { s with client := some (s.constructions + 1),
                         constructions := s.constructions + 1,
                         lockEntry := true, initPending := true,
                         promiseResolved := false,
                         tasks := s.tasks.set i PC.initAwait } := by
              simp only [stepOne, hg, hc]
              rw [if_neg hl]
            rw [hstep]
            unfold SFInv
            dsimp only
            refine ⟨by omega, Or.inr (by rw [hc0]), ?_,
              fun h0 => absurd h0 (by omega), fun _ => by omega,
              fun _ hfalse => absurd hfalse (by decide)⟩
            intro r hrm
            rcases List.mem_or_eq_of_mem_set hrm with hin | heq
            · exact h3 r hin
            · simp at heq
        · -- fast path: the stored handle is returned at once
          have hcne : s.constructions ≠ 0 := by
            intro h0
            rw [(h4 h0).1] at hc
            exact Option.noConfusion hc
          have hc1 : s.constructions = 1 := by omega
          have h21 : hcl = 1 := by
            rcases h2 with h2 | h2
            · rw [hc] at h2
              exact Option.noConfusion h2
            · rw [hc] at h2
              exact Option.some.inj h2
          simp only [stepOne, hg, hc]
          unfold SFInv
          dsimp only
          refine ⟨h1, ?_, ?_, fun h0 => absurd h0 hcne, fun _ => hc1,
            fun _ _ => any_isDone_set s.tasks i (PC.done (some hcl)) hlen rfl⟩
          · rw [h21]
            exact Or.inr rfl
          · intro r hrm
            rcases List.mem_or_eq_of_mem_set hrm with hin | heq
            · exact h3 r hin
            · rw [PC.done.injEq] at heq
              rw [heq, h21]
              exact Or.inr rfl
      | initAwait =>
        by_cases hp : s.promiseResolved = true
        · -- initializer resumes: delete the lock entry, return the handle
          have hc1 : s.constructions = 1 :=
            h5 ⟨PC.initAwait, hmem, by decide⟩
          simp only [stepOne, hg, hp, if_true]
          unfold SFInv
          dsimp only
          refine ⟨h1, h2, ?_, fun h0 => absurd h0 (by omega),
            fun _ => hc1,
            fun _ _ => any_isDone_set s.tasks i (PC.done s.client) hlen rfl⟩
          intro r hrm
          rcases List.mem_or_eq_of_mem_set hrm with hin | heq
          · exact h3 r hin
          · rw [PC.done.injEq] at heq
            rw [heq]
            exact h2
        · simp only [stepOne, hg, hp, if_false]
          unfold SFInv
          exact ⟨h1, h2, h3, h4, h5, h6⟩
      | waiting =>
        by_cases hp : s.promiseResolved = true
        · -- waiter resumes: re-read the (possibly null) handle
          have hc1 : s.constructions = 1 :=
            h5 ⟨PC.waiting, hmem, by decide⟩
          simp only [stepOne, hg, hp, if_true]
          unfold SFInv
          dsimp only
          refine ⟨h1, h2, ?_, fun h0 => absurd h0 (by omega),
            fun _ => hc1,
            fun _ _ => any_isDone_set s.tasks i (PC.done s.client) hlen rfl⟩
          intro r hrm
          rcases List.mem_or_eq_of_mem_set hrm with hin | heq
          · exact h3 r hin
          · rw [PC.done.injEq] at heq
            rw [heq]
            exact h2
        · simp only [stepOne, hg, hp, if_false]
          unfold SFInv
          exact ⟨h1, h2, h3, h4, h5, h6⟩
      | done r =>
        simp only [stepOne, hg]
        unfold SFInv
        exact ⟨h1, h2, h3, h4, h5, h6⟩

theorem SFInv_init (n : Nat) : SFInv (initGState n) := by
  unfold SFInv initGState
  dsimp only
  refine ⟨by omega, Or.inl rfl, ?_, ?_, ?_, ?_⟩
  · intro r hr
    have h := List.eq_of_mem_replicate hr
    simp at h
  · intro _
    exact ⟨rfl, rfl, rfl, fun pc hpc => List.eq_of_mem_replicate hpc⟩
  · rintro ⟨pc, hpc, hne⟩
    exact absurd (List.eq_of_mem_replicate hpc) hne
  · intro h
    exact absurd h (by omega)

theorem SFInv_runActs : ∀ (acts : List Act) (s : GState),
    SFInv s → admissibleB s acts = true → SFInv (runActs s acts) := by
  intro acts
  induction acts with
  | nil => exact fun s h _ => h
  | cons a rest ih =>
    intro s h hadm
    rw [admissibleB, Bool.and_eq_true] at hadm
    show SFInv (runActs (stepOne s a) rest)
    refine ih (stepOne s a) (SFInv_stepOne s a h ?_) hadm.2
    intro i ha hg
    subst ha
    have h1 := hadm.1
    rw [actOk, if_pos hg] at h1
    exact h1

theorem stepOne_tasks_length (s : GState) (a : Act) :
    (stepOne s a).tasks.length = s.tasks.length := by
  cases a with
  | initOk =>
    by_cases h : s.initPending = true
    · simp only [stepOne, h, if_true]
    · simp only [stepOne]
      rw [if_neg h]
  | initFail =>
    by_cases h : s.initPending = true
    · simp only [stepOne, h, if_true]
    · simp only [stepOne]
      rw [if_neg h]
  | task i =>
    rcases hg : s.tasks.get? i with _ | pc
    · simp only [stepOne, hg]
    · cases pc with
      | start =>
        rcases hc : s.client with _ | c
        · by_cases hl : s.lockEntry = true
          · simp only [stepOne, hg, hc, hl, if_true]
            exact List.length_set ..
          · simp only [stepOne, hg, hc]
            rw [if_neg hl]
            exact List.length_set ..
        · simp only [stepOne, hg, hc]
          exact List.length_set ..
      | initAwait =>
        by_cases hp : s.promiseResolved = true
        · simp only [stepOne, hg, hp, if_true]
          exact List.length_set ..
        · simp only [stepOne, hg]
          rw [if_neg hp]
      | waiting =>
        by_cases hp : s.promiseResolved = true
        · simp only [stepOne, hg, hp, if_true]
          exact List.length_set ..
        · simp only [stepOne, hg]
          rw [if_neg hp]
      | done r => simp only [stepOne, hg]

theorem runActs_tasks_length : ∀ (acts : List Act) (s : GState),
    (runActs s acts).tasks.length = s.tasks.length
  | [], _ => rfl
  | a :: rest, s => by
    show (runActs (stepOne s a) rest).tasks.length = s.tasks.length
    rw [runActs_tasks_length rest (stepOne s a), stepOne_tasks_length]

/-- Claim C1, amended: single-flight, corrected caller behavior.  For any
number of callers n ≥ 1 that all invoke `getOrCreateClient` for the same
userId before any invocation completes (admissible schedules), under every
interleaving of entry segments, lock waits, and the success or failure of
`client.initialize()`: once every caller has run its entry segment,
exactly one underlying client construction has been performed, and every
value any caller ever returns is either the unique constructed handle or
null (the null case after a failed initialization) — never a second,
duplicate handle.  (The claim's further assertion that every non-first
caller suspends until the initialization completes is false — see the
counterexample: callers can fast-path on the already-stored handle while
initialization is still in flight.) -/
theorem single_flight_amended (n : Nat) (acts : List Act) (hn : 1 ≤ n)
    (hadm : admissibleB (initGState n) acts = true)
    (hall : allStartedB (runActs (initGState n) acts) = true) :
    (runActs (initGState n) acts).constructions = 1 ∧
    ∀ r : Option Nat, PC.done r ∈ (runActs (initGState n) acts).tasks →
      r = none ∨ r = some 1 := by
  have hinv := SFInv_runActs acts (initGState n) (SFInv_init n) hadm
  unfold SFInv at hinv
  obtain ⟨h1, h2, h3, h4, h5, h6⟩ := hinv
  refine ⟨?_, h3⟩
  have hlen : (runActs (initGState n) acts).tasks.length = n := by
    rw [runActs_tasks_length]
    simp [initGState]
  have hne : (runActs (initGState n) acts).tasks ≠ [] := by
    intro h0
    rw [h0] at hlen
    simp at hlen
    omega
  obtain ⟨pc, hpc⟩ := List.exists_mem_of_ne_nil _ hne
  rw [allStartedB, List.all_eq_true] at hall
  have hpcs := hall pc hpc
  have hpcne : pc ≠ PC.start := by
    cases pc <;> simp_all
  exact h5 ⟨pc, hpc, hpcne⟩

/-- Witness for the amended C1: two concurrent callers; the first becomes
the initializer, the initialization fails, the second waits on the lock;
exactly one construction happened and the schedule was admissible. -/
theorem single_flight_amended_witness :
    (runActs (initGState 2)
      [Act.task 0, Act.initFail, Act.task 1, Act.task 0]).constructions =
      1 ∧
    ∀ r : Option Nat,
      PC.done r ∈ (runActs (initGState 2)
        [Act.task 0, Act.initFail, Act.task 1, Act.task 0]).tasks →
      r = none ∨ r = some 1 :=
  single_flight_amended 2 [Act.task 0, Act.initFail, Act.task 1, Act.task 0]
    (by decide) (by decide) (by decide)

/-- Claim C1, counterexample: not every other caller suspends on the
in-flight initialization.  With two concurrent callers, after caller 0
runs its entry segment (constructing the client and storing the handle
before suspending at `await client.initialize()`), caller 1's entry
segment takes the `if (state.client) return state.client` fast path: it
completes — holding handle 1 — while the initialization is still pending,
without ever suspending on the lock.  If the initialization then fails,
the registry's handle is cleared to null while caller 1 still holds the
now-destroyed handle 1, i.e. a stale handle. -/
theorem single_flight_fastpath_counterexample :
    ((runActs (initGState 2) [Act.task 0, Act.task 1]).tasks.get? 1 =
        some (PC.done (some 1)) ∧
     (runActs (initGState 2) [Act.task 0, Act.task 1]).initPending =
        true) ∧
    ((runActs (initGState 2)
        [Act.task 0, Act.task 1, Act.initFail]).client = none ∧
     (runActs (initGState 2)
        [Act.task 0, Act.task 1, Act.initFail]).tasks.get? 1 =
        some (PC.done (some 1))) := by
  decide
